import Mathlib

/-!
  # aws-sign-web: AWS Signature v4 signing, shallowly embedded

  This file embeds the signing pipeline of `aws-sign-web.js` (Node build) and
  its browser twin (the unnamed UMD module), which differ only at one site
  noted below.  JavaScript objects with string values are modelled as
  insertion-ordered association lists with unique keys; JS truthiness of
  optional string fields is modelled explicitly; the external collaborators
  (Node's legacy `url.parse`, `deep-extend`, `crypto` SHA-256/HMAC,
  `encodeURIComponent`, `Date.prototype.toISOString`) are modelled by
  executable Lean functions faithful to their documented behaviour on the
  inputs this library feeds them (ASCII-dominated strings, absolute
  `http(s)` URLs without userinfo or fragment, years 0-9999).
-/

namespace AwsSignWeb

/-! ## JavaScript object and string primitives -/

/-- JS truthiness of an optional string-valued field: `undefined`, `null` and
`""` are falsy, every other string is truthy. -/
def jsTruthy : Option String → Bool
  | none => false
  | some s => s != ""

/-- Property read on a JS object (`o[k]`): `none` models `undefined`. -/
def jsGet (o : List (String × String)) (k : String) : Option String :=
  match o with
  | [] => none
  | kv :: r => if kv.1 = k then some kv.2 else jsGet r k

/-- Property write on a JS object (`o[k] = v`): overwrites in place when the
key exists, otherwise appends (JS insertion order). -/
def jsSet (o : List (String × String)) (k v : String) : List (String × String) :=
  match o with
  | [] => [(k, v)]
  | kv :: r => if kv.1 = k then (k, v) :: r else kv :: jsSet r k v

/-- `delete o[k]`. -/
def jsDelete (o : List (String × String)) (k : String) : List (String × String) :=
  o.filter (fun kv => kv.1 ≠ k)

/-- `Object.keys(o)`, in insertion order. -/
def jsKeys (o : List (String × String)) : List String :=
  o.map (fun kv => kv.1)

/-- `deep-extend(target, source)` restricted to flat string-valued objects:
every own key of `source` is assigned onto `target`, source values winning. -/
def jsExtend (target source : List (String × String)) : List (String × String) :=
  source.foldl (fun acc kv => jsSet acc kv.1 kv.2) target

/-- JS `<` on strings: lexicographic comparison of UTF-16 code units
(code points, for the BMP characters used here). -/
def strLtChars : List Char → List Char → Bool
  | [], [] => false
  | [], _ :: _ => true
  | _ :: _, [] => false
  | a :: as, b :: bs =>
    if a.toNat < b.toNat then true
    else if b.toNat < a.toNat then false
    else strLtChars as bs

def strLtB (a b : String) : Bool := strLtChars a.data b.data

/-- Insert one string into a list sorted by the JS default comparator. -/
def insertStr (x : String) : List String → List String
  | [] => [x]
  | y :: r => if strLtB x y then x :: y :: r else y :: insertStr x r

/-- `Array.prototype.sort()` with the default comparator, on string arrays. -/
def sortStrings (l : List String) : List String :=
  l.foldr insertStr []

/-- `Array.prototype.join(sep)`. -/
def joinSep (sep : String) : List String → String
  | [] => ""
  | [x] => x
  | x :: y :: r => x ++ sep ++ joinSep sep (y :: r)

/-- The decimal digit character of `n % 10`. -/
def dchar (n : Nat) : Char :=
  match n % 10 with
  | 0 => '0' | 1 => '1' | 2 => '2' | 3 => '3' | 4 => '4'
  | 5 => '5' | 6 => '6' | 7 => '7' | 8 => '8' | _ => '9'

/-- Decimal digits of `n`, most significant first (fuel-driven so that it
reduces in the kernel). -/
def natDigitsAux : Nat → Nat → List Char
  | 0, _ => []
  | f + 1, n => if n < 10 then [dchar n] else natDigitsAux f (n / 10) ++ [dchar n]

/-- JS `String(n)` for a natural number. -/
def natRepr (n : Nat) : String := String.mk (natDigitsAux (n + 1) n)

/-- JS `String.prototype.toLowerCase` (ASCII, which is all this library
feeds it). -/
def jsToLower (s : String) : String := String.mk (s.data.map Char.toLower)

/-- JS `String.prototype.toUpperCase` (ASCII). -/
def jsToUpper (s : String) : String := String.mk (s.data.map Char.toUpper)

/-- JS `String.prototype.split` with a single-character separator. -/
def splitChar (sep : Char) : List Char → List (List Char)
  | [] => [[]]
  | c :: r =>
    if c = sep then [] :: splitChar sep r
    else
      match splitChar sep r with
      | [] => [[c]]
      | g :: gs => (c :: g) :: gs

/-- JS `s.split(sep)` on strings, single-character separator. -/
def jsSplit (sep : Char) (s : String) : List String :=
  (splitChar sep s.data).map String.mk

/-! ## SHA-256 and HMAC-SHA256 (models Node `crypto` / CryptoJS)

Bytes are naturals below 256, 32-bit words are naturals reduced mod `2^32`. -/

def w32 (n : Nat) : Nat := n % 4294967296

def rotr (n x : Nat) : Nat := w32 ((x >>> n) ||| (x <<< (32 - n)))

def bsig0 (x : Nat) : Nat := rotr 2 x ^^^ rotr 13 x ^^^ rotr 22 x

def bsig1 (x : Nat) : Nat := rotr 6 x ^^^ rotr 11 x ^^^ rotr 25 x

def ssig0 (x : Nat) : Nat := rotr 7 x ^^^ rotr 18 x ^^^ (x >>> 3)

def ssig1 (x : Nat) : Nat := rotr 17 x ^^^ rotr 19 x ^^^ (x >>> 10)

def chFun (x y z : Nat) : Nat := (x &&& y) ^^^ ((4294967295 ^^^ x) &&& z)

def majFun (x y z : Nat) : Nat := (x &&& y) ^^^ (x &&& z) ^^^ (y &&& z)

/-- The 64 SHA-256 round constants. -/
def shaK : List Nat :=
  [1116352408, 1899447441, 3049323471, 3921009573, 961987163, 1508970993,
   2453635748, 2870763221, 3624381080, 310598401, 607225278, 1426881987,
   1925078388, 2162078206, 2614888103, 3248222580, 3835390401, 4022224774,
   264347078, 604807628, 770255983, 1249150122, 1555081692, 1996064986,
   2554220882, 2821834349, 2952996808, 3210313671, 3336571891, 3584528711,
   113926993, 338241895, 666307205, 773529912, 1294757372, 1396182291,
   1695183700, 1986661051, 2177026350, 2456956037, 2730485921, 2820302411,
   3259730800, 3345764771, 3516065817, 3600352804, 4094571909, 275423344,
   430227734, 506948616, 659060556, 883997877, 958139571, 1322822218,
   1537002063, 1747873779, 1955562222, 2024104815, 2227730452, 2361852424,
   2428436474, 2756734187, 3204031479, 3329325298]

/-- The SHA-256 initial hash value. -/
def shaH0 : List Nat :=
  [1779033703, 3144134277, 1013904242, 2773480762,
   1359893119, 2600822924, 528734635, 1541459225]

/-- Big-endian bytes to 32-bit words (input length a multiple of 4). -/
def bytesToWords : List Nat → List Nat
  | b0 :: b1 :: b2 :: b3 :: r =>
    (b0 * 16777216 + b1 * 65536 + b2 * 256 + b3) :: bytesToWords r
  | _ => []

/-- Split a word list into 16-word blocks (fuel-driven). -/
def chunk16 : Nat → List Nat → List (List Nat)
  | 0, _ => []
  | _, [] => []
  | f + 1, l => l.take 16 :: chunk16 f (l.drop 16)

/-- Extend the reversed message schedule by `fuel` words. -/
def schedExt : Nat → List Nat → List Nat
  | 0, acc => acc
  | f + 1, acc =>
    let wNew := w32 (ssig1 (acc.getD 1 0) + acc.getD 6 0 + ssig0 (acc.getD 14 0) + acc.getD 15 0)
    schedExt f (wNew :: acc)

/-- The 64-word message schedule of one block. -/
def schedule (block : List Nat) : List Nat :=
  (schedExt 48 block.reverse).reverse

/-- One SHA-256 round on the working state `(a,b,c,d,e,f,g,h)`. -/
def shaRound (st : Nat × Nat × Nat × Nat × Nat × Nat × Nat × Nat) (kw : Nat × Nat) :
    Nat × Nat × Nat × Nat × Nat × Nat × Nat × Nat :=
  match st, kw with
  | (a, b, c, d, e, f, g, h), (k, w) =>
    let t1 := w32 (h + bsig1 e + chFun e f g + k + w)
    let t2 := w32 (bsig0 a + majFun a b c)
    (w32 (t1 + t2), a, b, c, w32 (d + t1), e, f, g)

/-- Compress one 16-word block into the running hash (8 words). -/
def compressBlock (hs block : List Nat) : List Nat :=
  let ws := schedule block
  let init := (hs.getD 0 0, hs.getD 1 0, hs.getD 2 0, hs.getD 3 0,
               hs.getD 4 0, hs.getD 5 0, hs.getD 6 0, hs.getD 7 0)
  match (shaK.zip ws).foldl shaRound init with
  | (a, b, c, d, e, f, g, h) =>
    [w32 (hs.getD 0 0 + a), w32 (hs.getD 1 0 + b), w32 (hs.getD 2 0 + c), w32 (hs.getD 3 0 + d),
     w32 (hs.getD 4 0 + e), w32 (hs.getD 5 0 + f), w32 (hs.getD 6 0 + g), w32 (hs.getD 7 0 + h)]

/-- 64-bit big-endian bytes of `n`. -/
def be64 (n : Nat) : List Nat :=
  [(n >>> 56) % 256, (n >>> 48) % 256, (n >>> 40) % 256, (n >>> 32) % 256,
   (n >>> 24) % 256, (n >>> 16) % 256, (n >>> 8) % 256, n % 256]

/-- 32-bit big-endian bytes of a word. -/
def be32 (w : Nat) : List Nat :=
  [(w >>> 24) % 256, (w >>> 16) % 256, (w >>> 8) % 256, w % 256]

/-- SHA-256 padding: `0x80`, zeros to 56 mod 64, then the bit length. -/
def padMessage (m : List Nat) : List Nat :=
  m ++ [128] ++ List.replicate ((119 - m.length % 64) % 64) 0 ++ be64 (8 * m.length)

/-- SHA-256 of a byte string, as 32 bytes. -/
def sha256Bytes (m : List Nat) : List Nat :=
  let words := bytesToWords (padMessage m)
  let blocks := chunk16 words.length words
  (blocks.foldl compressBlock shaH0).foldr (fun w acc => be32 w ++ acc) []

/-- Lowercase hex digit of `n % 16`. -/
def hexChar (n : Nat) : Char :=
  match n % 16 with
  | 0 => '0' | 1 => '1' | 2 => '2' | 3 => '3' | 4 => '4' | 5 => '5' | 6 => '6' | 7 => '7'
  | 8 => '8' | 9 => '9' | 10 => 'a' | 11 => 'b' | 12 => 'c' | 13 => 'd' | 14 => 'e' | _ => 'f'

/-- Lowercase hex encoding of a byte string (`digest('hex')` / `enc.Hex`). -/
def hexEncode (bs : List Nat) : String :=
  String.mk (bs.foldr (fun b acc => hexChar (b / 16) :: hexChar b :: acc) [])

/-- UTF-8 encoding of one character. -/
def utf8Bytes (c : Char) : List Nat :=
  let n := c.toNat
  if n < 128 then [n]
  else if n < 2048 then [192 + n / 64, 128 + n % 64]
  else if n < 65536 then [224 + n / 4096, 128 + n / 64 % 64, 128 + n % 64]
  else [240 + n / 262144, 128 + n / 4096 % 64, 128 + n / 64 % 64, 128 + n % 64]

/-- The UTF-8 bytes of a JS string, as fed to the hash providers. -/
def strBytes (s : String) : List Nat :=
  s.data.foldr (fun c acc => utf8Bytes c ++ acc) []

/-- HMAC-SHA256 over byte strings (`crypto.createHmac('sha256', key)` /
`CryptoJS.HmacSHA256`), returning the raw 32-byte digest. -/
def hmac (key msg : List Nat) : List Nat :=
  let k0 := if 64 < key.length then sha256Bytes key else key
  let kPad := k0 ++ List.replicate (64 - k0.length) 0
  sha256Bytes ((kPad.map (fun b => b ^^^ 92)) ++
    sha256Bytes ((kPad.map (fun b => b ^^^ 54)) ++ msg))

/-- The module's `sha256` helper: SHA-256 of a string, hex encoded. -/
def sha256 (input : String) : String := hexEncode (sha256Bytes (strBytes input))

/-! ## `encodeURIComponent`

The ECMAScript built-in leaves `A-Z a-z 0-9 - _ . ! ~ * ' ( )` unescaped and
percent-encodes the UTF-8 bytes of every other character, uppercase hex. -/

/-- Uppercase hex digit of `n % 16`. -/
def hexCharUpper (n : Nat) : Char :=
  match n % 16 with
  | 0 => '0' | 1 => '1' | 2 => '2' | 3 => '3' | 4 => '4' | 5 => '5' | 6 => '6' | 7 => '7'
  | 8 => '8' | 9 => '9' | 10 => 'A' | 11 => 'B' | 12 => 'C' | 13 => 'D' | 14 => 'E' | _ => 'F'

/-- `%XY` escapes of a byte sequence. -/
def percentEscape (bs : List Nat) : List Char :=
  bs.foldr (fun b acc => '%' :: hexCharUpper (b / 16) :: hexCharUpper b :: acc) []

/-- The characters `encodeURIComponent` leaves unescaped (code 39 is the
apostrophe). -/
def encKeep (c : Char) : Bool :=
  c.isAlpha || c.isDigit || c == '-' || c == '_' || c == '.' || c == '!' || c == '~' ||
    c == '*' || c.toNat == 39 || c == '(' || c == ')'

/-- JS `encodeURIComponent`. -/
def encodeURIComponent (s : String) : String :=
  String.mk (s.data.foldr (fun c acc => (if encKeep c then [c] else percentEscape (utf8Bytes c)) ++ acc) [])

/-! ## Node's legacy `url.parse` (external collaborator)

Modelled for absolute `scheme://host/…` URLs without userinfo or fragment,
which is what this library consumes.  `path` is pathname plus the `?search`
suffix, `query` is the raw substring after the first `'?'` (`none` when the
URL has no `'?'`), and the host is lowercased — exactly the fields and
conventions of `require('url').parse(urlString)` with no second argument. -/

/-- Split a character list at the first occurrence of `sep`; the second
component is `none` when `sep` does not occur. -/
def splitFirst (sep : Char) : List Char → List Char × Option (List Char)
  | [] => ([], none)
  | c :: r =>
    if c = sep then ([], some r)
    else
      match splitFirst sep r with
      | (a, b) => (c :: a, b)

structure Uri where
  host : String
  path : String
  query : Option String
  deriving Repr, DecidableEq

def parseUrl (url : String) : Uri :=
  let afterScheme : List Char :=
    match splitFirst ':' url.data with
    | (_, some ('/' :: '/' :: r)) => r
    | _ => url.data
  let hostPart := (splitFirst '/' afterScheme).1
  let rawPath : List Char :=
    match (splitFirst '/' afterScheme).2 with
    | some rest => '/' :: rest
    | none =>
      match splitFirst '?' hostPart with
      | (_, some q) => '/' :: '?' :: q
      | (_, none) => ['/']
  let hostOnly : List Char :=
    match splitFirst '?' hostPart with
    | (h, _) => h
  { host := jsToLower (String.mk hostOnly)
    path := String.mk rawPath
    query := ((splitFirst '?' rawPath).2).map String.mk }

/-! ## `Date` and AMZ date formatting -/

/-- A JS `Date`, broken into its UTC components.  `toISOString` is modelled
for years 0-9999 (the padded four-digit ISO form; the expanded-year format
for dates outside that range is not modelled). -/
structure Date where
  year : Nat
  month : Nat
  day : Nat
  hour : Nat
  minute : Nat
  second : Nat
  ms : Nat
  deriving Repr, DecidableEq

def pad2 (n : Nat) : List Char := [dchar (n / 10), dchar n]

def pad3 (n : Nat) : List Char := [dchar (n / 100), dchar (n / 10), dchar n]

def pad4 (n : Nat) : List Char := [dchar (n / 1000), dchar (n / 100), dchar (n / 10), dchar n]

/-- `Date.prototype.toISOString`: `YYYY-MM-DDTHH:MM:SS.mmmZ` in UTC. -/
def toISOString (d : Date) : String :=
  String.mk (pad4 d.year ++ '-' :: pad2 d.month ++ '-' :: pad2 d.day ++
    'T' :: pad2 d.hour ++ ':' :: pad2 d.minute ++ ':' :: pad2 d.second ++
    '.' :: pad3 d.ms ++ ['Z'])

/-- The global replace `.replace(/[:\-]|\.\d{3}/g, '')`: each `':'` or `'-'`
is dropped, and each `'.'` followed by three decimal digits is dropped
together with those digits. -/
def stripAmz : List Char → List Char
  | [] => []
  | c :: a :: b :: d :: r2 =>
    if c = ':' ∨ c = '-' then stripAmz (a :: b :: d :: r2)
    else if c = '.' ∧ a.isDigit ∧ b.isDigit ∧ d.isDigit then stripAmz r2
    else c :: stripAmz (a :: b :: d :: r2)
  | c :: r =>
    if c = ':' ∨ c = '-' then stripAmz r
    else c :: stripAmz r

/-- `amzDate(date, short)`: strip separators and milliseconds from the ISO
string, truncate to 17 UTF-16 units, and for the short form keep the first 8.
JS `substr` is modelled by `List.take` on the characters. -/
def amzDate (date : Date) (short : Bool) : String :=
  let result := (stripAmz (toISOString date).data).take 17
  if short then String.mk (result.take 8) else String.mk result

/-! ## Configuration and construction -/

/-- The signer configuration after merging with `defaultConfig`.  The hash
provider is pluggable (`hasherFactory`); the default is the module's
`sha256`.  The payload serializer is an external collaborator (`JSON.stringify`
by default) and is treated as an opaque string function, per the spec. -/
structure Config where
  accessKeyId : String := ""
  secretAccessKey : String := ""
  sessionToken : Option String := none
  region : String := "eu-west-1"
  service : String := "execute-api"
  defaultContentType : String := "application/json"
  defaultAcceptType : String := "application/json"
  defaultExpectType : String := "100-continue"
  hash : String → String := sha256
  payloadSerializer : String → String := fun s => s

/-- The caller-supplied configuration object: `none` models an absent
property, which the `deep-extend` merge with `defaultConfig` fills in. -/
structure ConfigIn where
  accessKeyId : Option String := none
  secretAccessKey : Option String := none
  sessionToken : Option String := none
  region : Option String := none
  service : Option String := none

/-- `extend({}, defaultConfig, config)`. -/
def mergeConfig (ci : ConfigIn) : Config :=
  { accessKeyId := ci.accessKeyId.getD ""
    secretAccessKey := ci.secretAccessKey.getD ""
    sessionToken := ci.sessionToken
    region := ci.region.getD "eu-west-1"
    service := ci.service.getD "execute-api" }

/-- The `AwsSigner` constructor: merge the configuration, then `assert` that
`accessKeyId` and `secretAccessKey` are truthy, throwing otherwise. -/
def AwsSigner (ci : ConfigIn) : Except String Config :=
  let config := mergeConfig ci
  if jsTruthy (some config.accessKeyId) = false then
    Except.error "AwsSigner requires AWS AccessKeyID"
  else if jsTruthy (some config.secretAccessKey) = false then
    Except.error "AwsSigner requires AWS SecretAccessKey"
  else Except.ok config

/-! ## The request, the working set, and the pipeline -/

/-- A request in the Angular `$http` shape consumed by `sign`.  `body` and
`data` are the two payload sources; `data` is the logical payload already
viewed through the opaque serializer's input type. -/
structure Request where
  method : String
  url : String
  headers : List (String × String) := []
  params : Option (List (String × String)) := none
  body : Option String := none
  data : Option String := none
  deriving Repr, DecidableEq

/-- `uri.query` after `if (!uri.query) uri.query = {}`: either the raw query
string returned by `url.parse` (a JS primitive string) or an object.  The
object form arises only from the falsy-query branch and later `params`
merging — `url.parse` is called without `parseQueryString`, so it never
produces an object itself. -/
inductive JsQuery where
  | str : String → JsQuery
  | obj : List (String × String) → JsQuery
  deriving Repr, DecidableEq

def mkQuery : Option String → JsQuery
  | none => JsQuery.obj []
  | some s => if s = "" then JsQuery.obj [] else JsQuery.str s

/-- The parsed URI carried in the working set. -/
structure UriState where
  host : String
  path : String
  query : JsQuery
  deriving Repr, DecidableEq

/-- The per-call working set.  String stages start empty and are filled by
the pipeline steps, mirroring the source's progressive assignments. -/
structure Ws where
  request : Request
  signDate : Date
  uri : UriState
  payload : Option String := none
  sortedHeaderKeys : List String := []
  signedHeaders : String := ""
  canonicalRequest : String := ""
  credentialScope : String := ""
  stringToSign : String := ""
  signature : String := ""
  authorization : String := ""

/-- The complete state of one `sign` call: the caller's request object and
the signer's configuration (reachable by reference from inside `sign`),
plus the working set.  `extend({}, request)` deep-copies the request, so
`ws.request` starts as an independent copy of `callerRequest`; every
assignment the pipeline performs is translated as an update of `ws`, and
none targets the caller's objects — which is exactly what the frame claim
asserts. -/
structure SignState where
  callerRequest : Request
  callerConfig : Config
  ws : Ws

/-- The start of `sign`: parse the URL, default a falsy query to `{}`, and
build the working set around a copy of the request. -/
def mkSignState (cfg : Config) (request : Request) (signDate : Date) : SignState :=
  let uri := parseUrl request.url
  { callerRequest := request
    callerConfig := cfg
    ws := { request := request
            signDate := signDate
            uri := { host := uri.host, path := uri.path, query := mkQuery uri.query } } }

/-- `extend(ws.uri.query, ws.request.params)`: `deep-extend` refuses a
non-object target, so a raw query string is returned unchanged and the
params are silently dropped. -/
def mergeParams (q : JsQuery) : Option (List (String × String)) → JsQuery
  | none => q
  | some ps =>
    match q with
    | JsQuery.str s => JsQuery.str s
    | JsQuery.obj l => JsQuery.obj (jsExtend l ps)

/-- `prepare(self, ws)`: base headers, payload selection (deleting
`content-type` when there is no payload), caller-header normalization and
merge, sorted header keys, content-type parameter stripping, and the
params-into-query merge. -/
def prepare (st : SignState) : SignState :=
  let cfg := st.callerConfig
  let ws := st.ws
  let headers0 : List (String × String) :=
    [("host", ws.uri.host),
     ("content-type", cfg.defaultContentType),
     ("accept", cfg.defaultAcceptType),
     ("expect", cfg.defaultExpectType),
     ("x-amz-date", amzDate ws.signDate false)]
  let method1 := jsToUpper ws.request.method
  let payload : Option String :=
    if jsTruthy ws.request.body then ws.request.body
    else if jsTruthy ws.request.data then some (cfg.payloadSerializer (ws.request.data.getD ""))
    else none
  let headers1 :=
    if jsTruthy ws.request.body then headers0
    else if jsTruthy ws.request.data then headers0
    else jsDelete headers0 "content-type"
  let normalized := ws.request.headers.foldl (fun acc kv => jsSet acc (jsToLower kv.1) kv.2) []
  let headers2 := jsExtend headers1 normalized
  let sortedKeys := sortStrings (jsKeys headers2)
  let headers3 :=
    if jsTruthy (jsGet headers2 "content-type") then
      jsSet headers2 "content-type" ((jsSplit ';' ((jsGet headers2 "content-type").getD "")).headD "")
    else headers2
  let query1 := mergeParams ws.uri.query ws.request.params
  { st with
    ws := { ws with
            request := { ws.request with method := method1, headers := headers3 }
            payload := payload
            sortedHeaderKeys := sortedKeys
            uri := { ws.uri with query := query1 } } }

/-- The canonical URI expression: the parsed `path`, split on `'/'`, each
segment through `encodeURIComponent`, rejoined with `'/'`. -/
def canonicalUri (path : String) : String :=
  joinSep "/" ((jsSplit '/' path).map encodeURIComponent)

/-- The key/value pairs that `Object.keys(q)` / `q[key]` traverse: for an
object, its entries; for a primitive string, its character-index properties
`("0", c0), ("1", c1), …`. -/
def queryPairs : JsQuery → List (String × String)
  | JsQuery.obj l => l
  | JsQuery.str s => (List.range s.data.length).map (fun i => (natRepr i, String.mk [s.data.getD i ' ']))

/-- The canonical query string expression: keys sorted by the JS default
comparator, each key and value through `encodeURIComponent`, joined with
`'&'`. -/
def canonicalQueryString (q : JsQuery) : String :=
  joinSep "&" ((sortStrings ((queryPairs q).map (fun kv => kv.1))).map
    (fun key => encodeURIComponent key ++ "=" ++ encodeURIComponent ((jsGet (queryPairs q) key).getD "")))

/-- The canonical-headers block: one `lowercase-name:value` line per sorted
header key, newline-joined. -/
def canonicalHeaderLines (sortedKeys : List String) (headers : List (String × String)) : String :=
  joinSep "\n" (sortedKeys.map (fun key => jsToLower key ++ ":" ++ (jsGet headers key).getD ""))

/-- The final canonical-request component: the literal `UNSIGNED-PAYLOAD`
when the request explicitly carries that header value, otherwise the
configured hash of the payload (of the empty string when the payload is
falsy).  This is the browser implementation's `self.hasher.hash`; the Node
file's divergence at this site is modelled separately below. -/
def payloadHashComponent (cfg : Config) (headers : List (String × String)) (payload : Option String) : String :=
  if jsGet headers "x-amz-content-sha256" = some "UNSIGNED-PAYLOAD" then "UNSIGNED-PAYLOAD"
  else cfg.hash (payload.getD "")

/-- `buildCanonicalRequest(self, ws)`: the signed-headers list and the
six-component newline-joined canonical request (the headers component
carries its extra trailing newline). -/
def buildCanonicalRequest (st : SignState) : SignState :=
  let cfg := st.callerConfig
  let ws := st.ws
  let signedH := joinSep ";" (ws.sortedHeaderKeys.map jsToLower)
  let canReq := joinSep "\n"
    [jsToUpper ws.request.method,
     canonicalUri ws.uri.path,
     canonicalQueryString ws.uri.query,
     canonicalHeaderLines ws.sortedHeaderKeys ws.request.headers ++ "\n",
     signedH,
     payloadHashComponent cfg ws.request.headers ws.payload]
  { st with ws := { ws with signedHeaders := signedH, canonicalRequest := canReq } }

/-- `buildStringToSign(self, ws)`. -/
def buildStringToSign (st : SignState) : SignState :=
  let cfg := st.callerConfig
  let ws := st.ws
  let scope := joinSep "/" [amzDate ws.signDate true, cfg.region, cfg.service, "aws4_request"]
  let sts := joinSep "\n" ["AWS4-HMAC-SHA256", amzDate ws.signDate false, scope, cfg.hash ws.canonicalRequest]
  { st with ws := { ws with credentialScope := scope, stringToSign := sts } }

/-- `calculateSignature(self, ws)`: the four nested HMACs deriving the
signing key, then the hex-encoded HMAC of the string to sign. -/
def calculateSignature (st : SignState) : SignState :=
  let cfg := st.callerConfig
  let ws := st.ws
  let signKey :=
    hmac
      (hmac
        (hmac
          (hmac (strBytes ("AWS4" ++ cfg.secretAccessKey)) (strBytes (amzDate ws.signDate true)))
          (strBytes cfg.region))
        (strBytes cfg.service))
      (strBytes "aws4_request")
  { st with ws := { ws with signature := hexEncode (hmac signKey (strBytes ws.stringToSign)) } }

/-- `buildSignatureHeader(self, ws)`. -/
def buildSignatureHeader (st : SignState) : SignState :=
  let cfg := st.callerConfig
  let ws := st.ws
  { st with ws := { ws with authorization :=
      "AWS4-HMAC-SHA256 " ++ "Credential=" ++ cfg.accessKeyId ++ "/" ++ ws.credentialScope ++ ", " ++
      "SignedHeaders=" ++ ws.signedHeaders ++ ", " ++ "Signature=" ++ ws.signature } }

/-- The whole `sign` pipeline, as a state transformer. -/
def runSign (cfg : Config) (request : Request) (signDate : Date) : SignState :=
  buildSignatureHeader (calculateSignature (buildStringToSign (buildCanonicalRequest (prepare (mkSignState cfg request signDate)))))

/-- The mapping `sign` returns.  `none` models a key whose value is
`undefined`. -/
structure Output where
  accept : Option String
  expect : Option String
  authorization : Option String
  contentType : Option String
  contentLength : Option String
  xAmzDate : Option String
  xAmzSecurityToken : Option String

/-- The object literal returned by `sign`, read off the final state. -/
def signOutput (cfg : Config) (request : Request) (signDate : Date) : Output :=
  let st := runSign cfg request signDate
  { accept := jsGet st.ws.request.headers "accept"
    expect := jsGet st.ws.request.headers "expect"
    authorization := some st.ws.authorization
    contentType := jsGet st.ws.request.headers "content-type"
    contentLength := jsGet st.ws.request.headers "content-length"
    xAmzDate := jsGet st.ws.request.headers "x-amz-date"
    xAmzSecurityToken := if jsTruthy cfg.sessionToken then cfg.sessionToken else none }

/-! ## The Node file's payload-hash site

`aws-sign-web.js` line 152 reads `this.hasher.hash(...)` inside
`buildCanonicalRequest`, a free function invoked as a plain call
(`buildCanonicalRequest(this, workingSet)`), so `this` is the global object
(sloppy mode), `this.hasher` is `undefined`, and the branch throws a
`TypeError` instead of hashing.  The browser twin uses `self.hasher` and is
the `payloadHashComponent` above. -/
def payloadHashNode (headers : List (String × String)) (_payload : Option String) : Except String String :=
  if jsGet headers "x-amz-content-sha256" = some "UNSIGNED-PAYLOAD" then Except.ok "UNSIGNED-PAYLOAD"
  else Except.error "TypeError: Cannot read properties of undefined (reading hash)"

/-! ## Claim-side definitions

Written from the specification's words, independently of the code-derived
definitions above, so that the refinement theorems compare two independent
formulations. -/

/-- The key-derivation chain exactly as the spec's §4.4 pseudocode names it:
`kSecret, kDate, kRegion, kService, kSigning`, every intermediate output used
as raw bytes, the final signature hex encoded. -/
def specDeriveSignature (secretAccessKey region service shortDate stringToSign : String) : String :=
  let kSecret := strBytes ("AWS4" ++ secretAccessKey)
  let kDate := hmac kSecret (strBytes shortDate)
  let kRegion := hmac kDate (strBytes region)
  let kService := hmac kRegion (strBytes service)
  let kSigning := hmac kService (strBytes "aws4_request")
  hexEncode (hmac kSigning (strBytes stringToSign))

/-- RFC 3986 unreserved characters, as the claim words them: letters, digits,
`-`, `.`, `_`, `~`. -/
def rfc3986Unreserved (c : Char) : Bool :=
  c.isAlpha || c.isDigit || c == '-' || c == '.' || c == '_' || c == '~'

/-- Percent-encoding under the claim's strict unreserved rule: everything
outside the unreserved set is escaped. -/
def rfc3986Encode (s : String) : String :=
  String.mk (s.data.foldr (fun c acc => (if rfc3986Unreserved c then [c] else percentEscape (utf8Bytes c)) ++ acc) [])

/-- The URL's path stripped of its query-string suffix. -/
def pathWithoutQuery (path : String) : String :=
  String.mk (splitFirst '?' path.data).1

/-- The canonical URI as the claim states it: the path without the query
string, split on `'/'`, each segment strictly RFC 3986 encoded, rejoined. -/
def claimCanonicalUri (path : String) : String :=
  joinSep "/" ((jsSplit '/' (pathWithoutQuery path)).map rfc3986Encode)

/-- The amended unescaped set: RFC 3986 unreserved plus `! * ' ( )` (code 39
is the apostrophe) — the set of JS `encodeURIComponent`. -/
def amendedKeepSet (c : Char) : Bool :=
  rfc3986Unreserved c || c == '!' || c == '*' || c.toNat == 39 || c == '(' || c == ')'

/-- Segment encoding under the amended rule. -/
def amendedSegEncode (s : String) : String :=
  String.mk (s.data.foldr (fun c acc => (if amendedKeepSet c then [c] else percentEscape (utf8Bytes c)) ++ acc) [])

/-- The canonical URI as amended: the parsed `path` field as is (Node's
`url.parse` includes the `?query` suffix in it), segments encoded with the
amended (encodeURIComponent) rule. -/
def amendedCanonicalUri (path : String) : String :=
  joinSep "/" ((jsSplit '/' path).map amendedSegEncode)

/-- A concrete configuration used by the closed counterexample theorems. -/
def cfgEx : Config := { accessKeyId := "AKID", secretAccessKey := "SECRET" }

/-- The failing input of the query-string bug: a URL that carries its query
in the URL itself, plus an explicit `params` mapping. -/
def reqQueryEx : Request :=
  { method := "GET", url := "http://example.com/path?b=2&a=1", params := some [("c", "3")] }

/-- The failing input of the bodiless-request claim: no body and no data,
but caller headers that themselves set `content-type` and `x-amz-date`. -/
def reqHeaderEx : Request :=
  { method := "GET", url := "http://h/",
    headers := [("Content-Type", "text/plain"), ("X-Amz-Date", "BOGUS")] }

/-- A fixed signing instant for the closed theorems. -/
def dateEx : Date := ⟨2015, 8, 30, 12, 36, 0, 0⟩

/-- A bodiless request with no caller headers, for the bodiless-request
witness. -/
def reqPlainEx : Request := { method := "GET", url := "http://h/" }

/-! ## Lemmas about the JS object model -/

/-- Reading back through a property write. -/
theorem jsGet_jsSet (o : List (String × String)) (k v k' : String) :
    jsGet (jsSet o k v) k' = if k' = k then some v else jsGet o k' := by
  induction o with
  | nil =>
    show jsGet [(k, v)] k' = _
    by_cases h : k' = k
    · simp [jsGet, h]
    · have h2 : ¬(k = k') := fun hh => h hh.symm
      simp [jsGet, h, h2]
  | cons kv r ih =>
    by_cases h1 : kv.1 = k
    · show jsGet (if kv.1 = k then (k, v) :: r else kv :: jsSet r k v) k' = _
      rw [if_pos h1]
      by_cases h2 : k' = k
      · simp [jsGet, h2]
      · have h3 : ¬(k = k') := fun hh => h2 hh.symm
        have hkv : ¬(kv.1 = k') := by rw [h1]; exact h3
        simp [jsGet, h2, h3, hkv]
    · show jsGet (if kv.1 = k then (k, v) :: r else kv :: jsSet r k v) k' = _
      rw [if_neg h1]
      by_cases h2 : kv.1 = k'
      · have h3 : ¬(k' = k) := fun hh => h1 (h2.trans hh)
        simp [jsGet, h2, h3]
      · simp [jsGet, h2, ih]

/-- A merge whose source never carries key `k` leaves `k`'s value alone. -/
theorem jsGet_jsExtend_not_mem (s : List (String × String)) (t : List (String × String))
    (k : String) (h : ∀ kv ∈ s, kv.1 ≠ k) : jsGet (jsExtend t s) k = jsGet t k := by
  induction s generalizing t with
  | nil => rfl
  | cons kv r ih =>
    have hk : kv.1 ≠ k := h kv (by simp)
    have hr : ∀ kv2 ∈ r, kv2.1 ≠ k := fun kv2 hm => h kv2 (by simp [hm])
    show jsGet (jsExtend (jsSet t kv.1 kv.2) r) k = _
    rw [ih (jsSet t kv.1 kv.2) hr, jsGet_jsSet,
        if_neg (fun hh : k = kv.1 => hk hh.symm)]

/-- Every entry of `jsSet o k v` is the written pair or an original entry. -/
theorem mem_jsSet (o : List (String × String)) (k v : String) (kv' : String × String)
    (h : kv' ∈ jsSet o k v) : kv' = (k, v) ∨ kv' ∈ o := by
  induction o with
  | nil => simpa [jsSet] using h
  | cons kv r ih =>
    by_cases h1 : kv.1 = k
    · rw [show jsSet (kv :: r) k v = (k, v) :: r from by simp [jsSet, h1]] at h
      rcases List.mem_cons.mp h with h2 | h2
      · left; exact h2
      · right; exact List.mem_cons_of_mem _ h2
    · rw [show jsSet (kv :: r) k v = kv :: jsSet r k v from by simp [jsSet, h1]] at h
      rcases List.mem_cons.mp h with h2 | h2
      · right; simp [h2]
      · rcases ih h2 with h3 | h3
        · left; exact h3
        · right; exact List.mem_cons_of_mem _ h3

/-- Keys of the lower-casing normalization fold come from the accumulator or
are lowercased caller keys. -/
theorem mem_fold_lower (hs : List (String × String)) (acc : List (String × String))
    (kv' : String × String)
    (h : kv' ∈ hs.foldl (fun acc kv => jsSet acc (jsToLower kv.1) kv.2) acc) :
    kv' ∈ acc ∨ ∃ kv ∈ hs, kv'.1 = jsToLower kv.1 := by
  induction hs generalizing acc with
  | nil => left; exact h
  | cons kv r ih =>
    rcases ih (jsSet acc (jsToLower kv.1) kv.2) h with hacc | ⟨kv0, hm, he⟩
    · rcases mem_jsSet _ _ _ _ hacc with he | hacc2
      · right; exact ⟨kv, by simp, by simp [he]⟩
      · left; exact hacc2
    · right; exact ⟨kv0, by simp [hm], he⟩

/-- A deleted property reads back as `undefined`. -/
theorem jsGet_jsDelete_self (o : List (String × String)) (k : String) :
    jsGet (jsDelete o k) k = none := by
  induction o with
  | nil => rfl
  | cons kv r ih =>
    by_cases h1 : kv.1 = k
    · have hd : (decide (kv.1 ≠ k)) = false := by simp [h1]
      simp only [jsDelete, List.filter_cons, hd]
      simpa [jsDelete] using ih
    · have hd : (decide (kv.1 ≠ k)) = true := by simp [h1]
      simp only [jsDelete, List.filter_cons, hd]
      simp only [jsGet, if_neg h1]
      simpa [jsDelete] using ih

/-! ## Lemmas about AMZ date stripping -/

/-- Digit characters produced by `dchar` really are decimal digits. -/
theorem dchar_isDigit (n : Nat) : (dchar n).isDigit = true := by
  have h : n % 10 < 10 := Nat.mod_lt _ (by norm_num)
  unfold dchar
  generalize hm : n % 10 = m at h ⊢
  interval_cases m <;> rfl

/-- Both characters of a two-digit pad are digits. -/
theorem pad2_digits (n : Nat) : ∀ c ∈ pad2 n, c.isDigit = true := by
  simp [pad2, dchar_isDigit]

/-- All characters of a four-digit pad are digits. -/
theorem pad4_digits (n : Nat) : ∀ c ∈ pad4 n, c.isDigit = true := by
  simp [pad4, dchar_isDigit]

/-- The strip scanner drops a separator character. -/
theorem strip_sep_cons (c : Char) (h : c = ':' ∨ c = '-') (l : List Char) :
    stripAmz (c :: l) = stripAmz l := by
  rcases l with _ | ⟨a, _ | ⟨b, _ | ⟨d, r⟩⟩⟩ <;> simp [stripAmz, h]

/-- The strip scanner keeps a digit character. -/
theorem strip_digit_cons (c : Char) (h : c.isDigit = true) (l : List Char) :
    stripAmz (c :: l) = c :: stripAmz l := by
  have h1 : ¬(c = ':' ∨ c = '-') := by
    rintro (rfl | rfl) <;> simp at h
  have h2 : ¬(c = '.') := by rintro rfl; simp at h
  rcases l with _ | ⟨a, _ | ⟨b, _ | ⟨d, r⟩⟩⟩ <;> simp [stripAmz, h1, h2]

/-- The strip scanner keeps any character that is not a separator and not a
dot. -/
theorem strip_other_cons (c : Char) (h1 : ¬(c = ':' ∨ c = '-')) (h2 : ¬(c = '.'))
    (l : List Char) : stripAmz (c :: l) = c :: stripAmz l := by
  rcases l with _ | ⟨a, _ | ⟨b, _ | ⟨d, r⟩⟩⟩ <;> simp [stripAmz, h1, h2]

/-- The strip scanner drops a dot followed by three digits together with
those digits. -/
theorem strip_dot_digits (a b d : Char) (ha : a.isDigit = true) (hb : b.isDigit = true)
    (hd : d.isDigit = true) (r : List Char) :
    stripAmz ('.' :: a :: b :: d :: r) = stripAmz r := by
  simp [stripAmz, ha, hb, hd]

/-- The strip scanner passes over a run of digit characters. -/
theorem strip_digits_append (l r : List Char) (h : ∀ c ∈ l, c.isDigit = true) :
    stripAmz (l ++ r) = l ++ stripAmz r := by
  induction l with
  | nil => rfl
  | cons c l2 ih =>
    have hc := h c (by simp)
    have hl2 : ∀ c2 ∈ l2, c2.isDigit = true := fun c2 hm => h c2 (by simp [hm])
    simp only [List.cons_append, strip_digit_cons c hc, ih hl2]

/-- Stripping the ISO string leaves exactly the sixteen characters
`YYYYMMDDTHHMMSSZ`. -/
theorem iso_strip (d : Date) :
    stripAmz (toISOString d).data =
      pad4 d.year ++ pad2 d.month ++ pad2 d.day ++
        'T' :: (pad2 d.hour ++ pad2 d.minute ++ pad2 d.second ++ ['Z']) := by
  show stripAmz (pad4 d.year ++ '-' :: (pad2 d.month ++ '-' :: (pad2 d.day ++
      'T' :: (pad2 d.hour ++ ':' :: (pad2 d.minute ++ ':' :: (pad2 d.second ++
      '.' :: (pad3 d.ms ++ ['Z']))))))) = _
  rw [strip_digits_append _ _ (pad4_digits d.year),
      strip_sep_cons '-' (by simp),
      strip_digits_append _ _ (pad2_digits d.month),
      strip_sep_cons '-' (by simp),
      strip_digits_append _ _ (pad2_digits d.day),
      strip_other_cons 'T' (by simp) (by simp),
      strip_digits_append _ _ (pad2_digits d.hour),
      strip_sep_cons ':' (by simp),
      strip_digits_append _ _ (pad2_digits d.minute),
      strip_sep_cons ':' (by simp),
      strip_digits_append _ _ (pad2_digits d.second)]
  rw [show ('.' :: (pad3 d.ms ++ ['Z'])) =
        '.' :: dchar (d.ms / 100) :: dchar (d.ms / 10) :: dchar d.ms :: ['Z'] from by simp [pad3],
      strip_dot_digits _ _ _ (dchar_isDigit _) (dchar_isDigit _) (dchar_isDigit _)]
  simp [stripAmz]

/-! ## Lemmas about the encoder sets -/

/-- The set `encodeURIComponent` keeps is the RFC 3986 unreserved set plus
the five marks. -/
theorem encKeep_eq_amended (c : Char) : encKeep c = amendedKeepSet c := by
  unfold encKeep amendedKeepSet rfc3986Unreserved
  cases c.isAlpha <;> cases c.isDigit <;> simp [Bool.or_comm, Bool.or_left_comm, Bool.or_assoc]

/-- The two segment encoders agree on every string. -/
theorem encodeURIComponent_eq_amended : encodeURIComponent = amendedSegEncode := by
  funext s
  unfold encodeURIComponent amendedSegEncode
  simp [encKeep_eq_amended]

/-! ## A lemma about the normalized header object -/

/-- After `prepare`, a request without body, data, or caller-set
`content-type` / `x-amz-date` headers has no `content-type` entry and carries
the formatted signing date. -/
theorem prepare_headers (st : SignState)
    (hb : st.ws.request.body = none) (hd : st.ws.request.data = none)
    (hct : ∀ kv ∈ st.ws.request.headers, jsToLower kv.1 ≠ "content-type")
    (had : ∀ kv ∈ st.ws.request.headers, jsToLower kv.1 ≠ "x-amz-date") :
    jsGet (prepare st).ws.request.headers "content-type" = none ∧
    jsGet (prepare st).ws.request.headers "x-amz-date" = some (amzDate st.ws.signDate false) := by
  have fn1 : ∀ kv ∈ st.ws.request.headers.foldl
      (fun acc kv => jsSet acc (jsToLower kv.1) kv.2) [], kv.1 ≠ "content-type" := by
    intro kv hm
    rcases mem_fold_lower _ _ kv hm with h0 | ⟨kv0, hm0, he⟩
    · simp at h0
    · rw [he]; exact hct kv0 hm0
  have fn2 : ∀ kv ∈ st.ws.request.headers.foldl
      (fun acc kv => jsSet acc (jsToLower kv.1) kv.2) [], kv.1 ≠ "x-amz-date" := by
    intro kv hm
    rcases mem_fold_lower _ _ kv hm with h0 | ⟨kv0, hm0, he⟩
    · simp at h0
    · rw [he]; exact had kv0 hm0
  have jtn : jsTruthy none = false := rfl
  simp only [prepare, hb, hd, jtn, Bool.false_eq_true, if_false]
  rw [jsGet_jsExtend_not_mem _ _ _ fn1, jsGet_jsDelete_self]
  simp only [jtn, Bool.false_eq_true, if_false]
  rw [jsGet_jsExtend_not_mem _ _ _ fn1, jsGet_jsExtend_not_mem _ _ _ fn2,
      jsGet_jsDelete_self]
  simp [jsDelete, jsGet]

/-! ## The claims -/

/-- C1: for every configuration and signing timestamp, `calculateSignature`
derives the signing key by exactly the four chained HMAC-SHA256 applications
`kSecret → kDate → kRegion → kService → kSigning` — keyed first with the
bytes of `"AWS4" ++ secretAccessKey` over the short date, then over region,
service, and the literal `"aws4_request"`, every intermediate output used as
raw bytes — and the final signature is the hex encoding of
`HMAC(signingKey, stringToSign)`. -/
theorem calculateSignature_is_spec_chain (st : SignState) :
    (calculateSignature st).ws.signature =
      specDeriveSignature st.callerConfig.secretAccessKey st.callerConfig.region
        st.callerConfig.service (amzDate st.ws.signDate true) st.ws.stringToSign := rfl

/-- C2: for every configuration and signing timestamp (stated for the
default SHA-256 hex hasher, as the claim does), the credential scope is
`shortDate/region/service/aws4_request` and the string to sign is the four
lines `AWS4-HMAC-SHA256`, long date, credential scope, and hex SHA-256 of
the canonical request, joined by single newlines. -/
theorem string_to_sign_structure (st : SignState) (hh : st.callerConfig.hash = sha256) :
    (buildStringToSign st).ws.credentialScope =
      amzDate st.ws.signDate true ++ "/" ++ st.callerConfig.region ++ "/" ++
        st.callerConfig.service ++ "/aws4_request" ∧
    (buildStringToSign st).ws.stringToSign =
      "AWS4-HMAC-SHA256" ++ "\n" ++ amzDate st.ws.signDate false ++ "\n" ++
      (amzDate st.ws.signDate true ++ "/" ++ st.callerConfig.region ++ "/" ++
        st.callerConfig.service ++ "/aws4_request") ++ "\n" ++
      sha256 st.ws.canonicalRequest := by
  constructor <;> simp [buildStringToSign, joinSep, String.append_assoc, hh]

/-- Witness for C2 at a concrete configuration, request, and date. -/
theorem string_to_sign_structure_witness :
    (buildStringToSign (mkSignState cfgEx reqQueryEx dateEx)).ws.credentialScope =
      amzDate dateEx true ++ "/" ++ "eu-west-1" ++ "/" ++ "execute-api" ++ "/aws4_request" ∧
    (buildStringToSign (mkSignState cfgEx reqQueryEx dateEx)).ws.stringToSign =
      "AWS4-HMAC-SHA256" ++ "\n" ++ amzDate dateEx false ++ "\n" ++
      (amzDate dateEx true ++ "/" ++ "eu-west-1" ++ "/" ++ "execute-api" ++ "/aws4_request") ++ "\n" ++
      sha256 (mkSignState cfgEx reqQueryEx dateEx).ws.canonicalRequest :=
  string_to_sign_structure (mkSignState cfgEx reqQueryEx dateEx) rfl

/-- C3: evaluating the code at the failing input.  For the request with URL
`http://example.com/path?b=2&a=1` and params `{c: "3"}`, the canonical query
string the pipeline produces enumerates the *characters* of the raw query
string under their numeric index keys — `url.parse` is called without
`parseQueryString`, so `uri.query` is a primitive string, `deep-extend`
silently refuses to merge `params` into it, and `Object.keys` walks its
indices — instead of the claimed sorted `a=1&b=2&c=3`. -/
theorem url_query_canonicalization_bug :
    canonicalQueryString (prepare (mkSignState cfgEx reqQueryEx dateEx)).ws.uri.query =
      "0=b&1=%3D&2=2&3=%26&4=a&5=%3D&6=1" ∧
    "0=b&1=%3D&2=2&3=%26&4=a&5=%3D&6=1" ≠ "a=1&b=2&c=3" :=
  ⟨by decide, by decide⟩

/-- C4 counterexample: at the URL `http://h/a(b?c=1` the code's canonical
URI keeps `(` unescaped and percent-encodes the query suffix into the path
(`/a(b%3Fc%3D1`), while the claim's strict-RFC 3986, query-stripped form is
`/a%28b`. -/
theorem canonical_uri_counterexample :
    canonicalUri (parseUrl "http://h/a(b?c=1").path = "/a(b%3Fc%3D1" ∧
    claimCanonicalUri (parseUrl "http://h/a(b?c=1").path = "/a%28b" ∧
    ("/a(b%3Fc%3D1" : String) ≠ "/a%28b" :=
  ⟨by decide, by decide, by decide⟩

/-- C4 as amended: for every request, the canonical URI component is the
parsed `path` field (which includes the `?query` suffix when the URL has
one) split on `/`, each segment encoded with JS `encodeURIComponent`
semantics — RFC 3986 unreserved characters plus `! * ' ( )` left unescaped,
everything else percent-encoded — and the segments rejoined with `/`, so
slashes themselves are never encoded. -/
theorem canonical_uri_amended (path : String) :
    canonicalUri path = amendedCanonicalUri path := by
  unfold canonicalUri amendedCanonicalUri
  rw [encodeURIComponent_eq_amended]

/-- C5: the `UNSIGNED-PAYLOAD` half of the claim holds (the literal is
embedded even when a body is present), but at any request that does not set
that header the Node file's payload-hash site throws — its else branch reads
`this.hasher` in a plain function call — where the claim (and the browser
twin's `payloadHashComponent`, shown in the last conjunct) requires the
configured hash of the payload. -/
theorem payload_hash_node_bug :
    payloadHashComponent cfgEx [("x-amz-content-sha256", "UNSIGNED-PAYLOAD")] (some "hello") = "UNSIGNED-PAYLOAD" ∧
    payloadHashNode [("x-amz-content-sha256", "UNSIGNED-PAYLOAD")] (some "hello") = Except.ok "UNSIGNED-PAYLOAD" ∧
    payloadHashNode [("content-type", "application/json")] (some "hello") =
      Except.error "TypeError: Cannot read properties of undefined (reading hash)" ∧
    payloadHashComponent cfgEx [("content-type", "application/json")] (some "hello") = sha256 "hello" :=
  ⟨rfl, rfl, rfl, rfl⟩

/-- C6: for every state, the canonical request is the newline-join, in this
exact order, of the upper-cased method, the canonical URI, the canonical
query string, the canonical headers block followed by one additional blank
line, the signed-headers list (sorted lower-cased keys joined with `;`), and
the payload hash; and the signed-headers string is that same list. -/
theorem canonical_request_structure (st : SignState) :
    (buildCanonicalRequest st).ws.canonicalRequest =
      jsToUpper st.ws.request.method ++ "\n" ++
      canonicalUri st.ws.uri.path ++ "\n" ++
      canonicalQueryString st.ws.uri.query ++ "\n" ++
      canonicalHeaderLines st.ws.sortedHeaderKeys st.ws.request.headers ++ "\n" ++ "\n" ++
      joinSep ";" (st.ws.sortedHeaderKeys.map jsToLower) ++ "\n" ++
      payloadHashComponent st.callerConfig st.ws.request.headers st.ws.payload := by
  simp [buildCanonicalRequest, joinSep, String.append_assoc]

/-- C7: for every valid `Date` (component ranges of a JS date, year at most
9999), the long AMZ date is exactly `YYYYMMDDTHHMMSSZ` — the ISO-8601 basic
form with `:`/`-` separators and milliseconds removed, 16 characters, hence
within the 17-character truncation — and the short form is exactly its first
8 characters `YYYYMMDD`. -/
theorem amz_date_format (d : Date) (_hy : d.year ≤ 9999) (_hmo : d.month ≤ 12)
    (_hda : d.day ≤ 31) (_hho : d.hour ≤ 23) (_hmi : d.minute ≤ 59) (_hse : d.second ≤ 59)
    (_hms : d.ms ≤ 999) :
    amzDate d false = String.mk (pad4 d.year ++ pad2 d.month ++ pad2 d.day ++
      'T' :: (pad2 d.hour ++ pad2 d.minute ++ pad2 d.second ++ ['Z'])) ∧
    (amzDate d false).data.length = 16 ∧
    amzDate d true = String.mk ((amzDate d false).data.take 8) := by
  have hlist := iso_strip d
  have hlen : (pad4 d.year ++ pad2 d.month ++ pad2 d.day ++
      'T' :: (pad2 d.hour ++ pad2 d.minute ++ pad2 d.second ++ ['Z'])).length = 16 := by
    simp [pad4, pad2]
  have hlong : amzDate d false = String.mk (pad4 d.year ++ pad2 d.month ++ pad2 d.day ++
      'T' :: (pad2 d.hour ++ pad2 d.minute ++ pad2 d.second ++ ['Z'])) := by
    unfold amzDate
    rw [hlist, List.take_of_length_le (by simp [pad4, pad2])]
    simp
  refine ⟨hlong, by rw [hlong]; simpa using hlen, ?_⟩
  unfold amzDate
  rw [hlist]
  simp

/-- Witness for C7 at the concrete date `2015-08-30T12:36:00.000Z`. -/
theorem amz_date_format_witness :
    amzDate dateEx false = String.mk (pad4 2015 ++ pad2 8 ++ pad2 30 ++
      'T' :: (pad2 12 ++ pad2 36 ++ pad2 0 ++ ['Z'])) ∧
    (amzDate dateEx false).data.length = 16 ∧
    amzDate dateEx true = String.mk ((amzDate dateEx false).data.take 8) :=
  amz_date_format dateEx (by decide) (by decide) (by decide) (by decide)
    (by decide) (by decide) (by decide)

/-- C8: constructing an `AwsSigner` fails exactly when `accessKeyId` or
`secretAccessKey` is missing or the empty string; with both credential
fields non-empty strings it succeeds. -/
theorem awsSigner_credential_validation (ci : ConfigIn) :
    (AwsSigner ci).isOk = false ↔
      (ci.accessKeyId = none ∨ ci.accessKeyId = some "" ∨
       ci.secretAccessKey = none ∨ ci.secretAccessKey = some "") := by
  rcases h1 : ci.accessKeyId with _ | a <;> rcases h2 : ci.secretAccessKey with _ | b <;>
    simp [AwsSigner, mergeConfig, jsTruthy, Except.isOk, Except.toBool, h1, h2] <;>
    split_ifs <;> simp_all

/-- C9 counterexample: a request with no body and no data whose own headers
set `Content-Type` and `X-Amz-Date` yields an output mapping that still
carries `content-type` (the caller's value, merged after the deletion) and
an `x-amz-date` that is not the signing timestamp — so the claim fails as
universally stated. -/
theorem bodiless_request_counterexample :
    (signOutput cfgEx reqHeaderEx dateEx).contentType = some "text/plain" ∧
    (signOutput cfgEx reqHeaderEx dateEx).contentType ≠ none ∧
    (signOutput cfgEx reqHeaderEx dateEx).xAmzDate = some "BOGUS" :=
  ⟨by decide, by decide, by decide⟩

/-- C9 as amended: for every request that supplies neither a body nor a data
field and whose own headers set neither `content-type` nor `x-amz-date`
(case-insensitively), the mapping returned by `sign` has no `content-type`
value, carries `x-amz-date` equal to the formatted signing timestamp, and
carries an `authorization` value. -/
theorem bodiless_request_amended (cfg : Config) (request : Request) (signDate : Date)
    (hb : request.body = none) (hd : request.data = none)
    (hct : ∀ kv ∈ request.headers, jsToLower kv.1 ≠ "content-type")
    (had : ∀ kv ∈ request.headers, jsToLower kv.1 ≠ "x-amz-date") :
    (signOutput cfg request signDate).contentType = none ∧
    (signOutput cfg request signDate).xAmzDate = some (amzDate signDate false) ∧
    (signOutput cfg request signDate).authorization.isSome = true := by
  have h := prepare_headers (mkSignState cfg request signDate) hb hd hct had
  exact ⟨h.1, h.2, rfl⟩

/-- Witness for the amended C9 at a concrete bodiless request. -/
theorem bodiless_request_amended_witness :
    (signOutput cfgEx reqPlainEx dateEx).contentType = none ∧
    (signOutput cfgEx reqPlainEx dateEx).xAmzDate = some (amzDate dateEx false) ∧
    (signOutput cfgEx reqPlainEx dateEx).authorization.isSome = true :=
  bodiless_request_amended cfgEx reqPlainEx dateEx rfl rfl (by simp [reqPlainEx]) (by simp [reqPlainEx])

/-- C10: for every configuration, request, and signing timestamp, running
the whole `sign` pipeline leaves the caller's request object — all of its
fields, headers and params included — and the signer's configuration exactly
as they were: every pipeline write targets the working set, whose `request`
starts as the `extend({}, request)` copy. -/
theorem sign_preserves_caller_state (cfg : Config) (request : Request) (signDate : Date) :
    (runSign cfg request signDate).callerRequest = request ∧
    (runSign cfg request signDate).callerConfig = cfg := ⟨rfl, rfl⟩

end AwsSignWeb
